import Mathlib

/-!
# terraform-provider-nostrap: the `nostrap_acl_token` resource

A shallow embedding of `provider/resource_nostrap_acl_token.go`.

The Go code talks to the outside world through library calls
(`url.ParseRequestURI`, `net.Dial`, `http.Post`, `json.Decoder.Decode`,
the AWS SSM client, `http.Client.Do`, `time.Sleep`).  Each call is modelled
as an explicit oracle: pure library functions live in `Env`, the outcomes of
successive network calls and the parameter store live in `World`, and every
call appends an `Event` to `World.trace`.  The two unbounded `for` loops take
a fuel argument; `none` means the fuel ran out before the loop ended.
-/

namespace Nostrap

/-! ## Constants -/

/-- `WAIT_TIMEOUT = 5` (seconds). -/
def WAIT_TIMEOUT : Nat := 5

/-- `NOMAD_BOOTSTRAP_ENDPOINT = "/v1/acl/bootstrap"`. -/
def NOMAD_BOOTSTRAP_ENDPOINT : String := "/v1/acl/bootstrap"

/-- `NOMAD_NODES_ENDPOINT = "/v1/nodes"`. -/
def NOMAD_NODES_ENDPOINT : String := "/v1/nodes"

/-- The marker searched in a non-200 bootstrap body (line 137). -/
def ALREADY_DONE_MARKER : String := "ACL bootstrap already done"

/-- `ssm.ErrCodeParameterNotFound`. -/
def ErrCodeParameterNotFound : String := "ParameterNotFound"

/-- `ssm.ErrCodeParameterAlreadyExists`. -/
def ErrCodeParameterAlreadyExists : String := "ParameterAlreadyExists"

/-! ## Go values -/

/-- An `awserr.Error`: a code and a message. -/
structure AwsError where
  code : String
  message : String
deriving DecidableEq, Repr

/-- A Go `error` value. `errorf` is one made by `fmt.Errorf`, `aws` an
`awserr.Error` from the SSM client, `lib` one handed back by another
library call. -/
inductive GoError where
  | errorf (msg : String)
  | aws (e : AwsError)
  | lib (msg : String)
deriving DecidableEq, Repr

/-- What a call of one of the resource functions ends in: `return nil`,
`return err`, or a run-time panic. -/
inductive Outcome where
  | ok
  | error (e : GoError)
  | panic
deriving DecidableEq, Repr

deriving instance DecidableEq for Except

/-- The struct `NostrapAclTokenResponse`. -/
structure NostrapAclTokenResponse where
  AccessorID : String
  SecretID : String
  Name : String
  Type_ : String
  Policies : String
  Global : Bool
  CreateTime : String
  CreateIndex : Int
  ModifyIndex : Int
deriving DecidableEq, Repr

/-- The two fields of `url.URL` the resource reads. -/
structure URL where
  Scheme : String
  Host : String
deriving DecidableEq, Repr

/-! ## `strings` and `net/url` helpers -/

/-- `strings.HasPrefix` on character lists. -/
def hasPrefix : List Char → List Char → Bool
  | _, [] => true
  | [], _ :: _ => false
  | c :: s, p :: ps => c == p && hasPrefix s ps

/-- `strings.Contains` on character lists: some suffix of `s` starts with
`substr`. -/
def containsChars : List Char → List Char → Bool
  | [], substr => hasPrefix [] substr
  | c :: s, substr => hasPrefix (c :: s) substr || containsChars s substr

/-- `strings.Contains(s, substr)`. -/
def stringsContains (s substr : String) : Bool :=
  containsChars s.data substr.data

/-- `strings.LastIndexByte(s, c)`: the index of the last `c`, `none` for
Go's `-1`. -/
def lastIndexByte : List Char → Char → Option Nat
  | [], _ => none
  | x :: s, c =>
    match lastIndexByte s c with
    | some i => some (i + 1)
    | none => if x = c then some 0 else none

/-- `validOptionalPort` of `net/url`: the string is empty, or a colon
followed by decimal digits only. -/
def validOptionalPort : List Char → Bool
  | [] => true
  | c :: rest => c == ':' && rest.all (fun b => !(decide (b < '0') || decide (b > '9')))

/-- `strings.HasSuffix` on character lists. -/
def hasSuffix (s suffix : List Char) : Bool :=
  hasPrefix s.reverse suffix.reverse

/-- `splitHostPort` of `net/url`: split at the last colon when what follows
is a valid optional port, then strip the brackets of an IPv6 literal. -/
def splitHostPort (hostPort : List Char) : List Char × List Char :=
  let hp : List Char × List Char :=
    match lastIndexByte hostPort ':' with
    | some colon =>
      if validOptionalPort (hostPort.drop colon) then
        (hostPort.take colon, hostPort.drop (colon + 1))
      else (hostPort, [])
    | none => (hostPort, [])
  if hasPrefix hp.1 ['['] && hasSuffix hp.1 [']'] then
    ((hp.1.drop 1).take (hp.1.length - 2), hp.2)
  else hp

/-- `(*URL).Port`: the port part of `u.Host` without the leading colon,
empty when `u.Host` has no valid numeric port. -/
def URL.Port (u : URL) : String :=
  ⟨(splitHostPort u.Host.data).2⟩

/-- `(*URL).Hostname`: `u.Host` with any valid port stripped. -/
def URL.Hostname (u : URL) : String :=
  ⟨(splitHostPort u.Host.data).1⟩

/-- Lines 96-104 of `resourceNostrapAclTokenCreate`: the dial target
`nomadSocket` computed from the parsed address. -/
def nomadSocket (u : URL) : String :=
  if u.Port = "" then
    (if u.Scheme = "https" then u.Host ++ ":443" else u.Host ++ ":80")
  else u.Host

/-! ## The outside world -/

/-- One call that leaves the process, in the order the calls are made. -/
inductive Event where
  /-- `net.Dial(network, address)`. -/
  | dial (network address : String)
  /-- `time.Sleep(seconds * time.Second)`. -/
  | sleep (seconds : Nat)
  /-- `http.Post(url, contentType, nil)`. -/
  | post (url contentType : String)
  /-- `client.PutParameter` in `region` with the given `Name`, `Value`,
  `Type` and `Overwrite`. -/
  | putParameter (region name value type : String) (overwrite : Bool)
  /-- `client.GetParameter` in `region` with the given `Name` and
  `WithDecryption`. -/
  | getParameter (region name : String) (withDecryption : Bool)
  /-- `httpClient.Do` of a `GET` request to `url` carrying the header
  `X-Nomad-Token: token`. -/
  | httpGet (url token : String)
  /-- The deferred `conn.Close()`. -/
  | closeConn
  /-- A deferred `resp.Body.Close()`. -/
  | closeBody
deriving DecidableEq, Repr

/-- What `http.Post` hands back: an error, or a response with its status
code and its body (`none` for a nil `resp.Body`). -/
inductive PostResult where
  | transportError (e : GoError)
  | response (status : Int) (body : Option String)
deriving DecidableEq, Repr

/-- What `httpClient.Do` hands back: an error, or a response with its
status code. -/
inductive DoResult where
  | transportError (e : GoError)
  | response (status : Int)
deriving DecidableEq, Repr

/-- What building the AWS session in `getSsmClient` runs into:
`session.NewSession` fails (so `session.Must` panics), the credentials
cannot be fetched, or both succeed. -/
inductive SessionResult where
  | sessionError
  | noCredentials
  | ready
deriving DecidableEq, Repr

/-- One region of the parameter store: the stored values (last write wins
per name) and, per name, an error the service answers with instead of
serving a write or a read. -/
structure SSM where
  params : String → Option String
  putError : String → Option AwsError
  getError : String → Option AwsError

/-- `PutParameter`: fails with the injected error if there is one, refuses to
replace an existing value unless `overwrite` is set, and otherwise stores
`value` under `name`. -/
def SSM.PutParameter (s : SSM) (name value : String) (overwrite : Bool) :
    Except AwsError SSM :=
  match s.putError name with
  | some e => .error e
  | none =>
    if !overwrite && (s.params name).isSome then
      .error ⟨ErrCodeParameterAlreadyExists, ""⟩
    else
      .ok { s with params := fun k => if k = name then some value else s.params k }

/-- `GetParameter`: fails with the injected error if there is one, with
`ParameterNotFound` when nothing is stored under `name`, and otherwise
returns the stored value. -/
def SSM.GetParameter (s : SSM) (name : String) : Except AwsError String :=
  match s.getError name with
  | some e => .error e
  | none =>
    match s.params name with
    | some v => .ok v
    | none => .error ⟨ErrCodeParameterNotFound, ""⟩

/-- The library functions whose answer depends only on their arguments,
and the choices the Go runtime makes for this run. -/
structure Env where
  /-- `url.ParseRequestURI`. -/
  parseRequestURI : String → Except GoError URL
  /-- `json.NewDecoder(body).Decode(&token)` on a zero `token`. -/
  jsonDecode : String → Except GoError NostrapAclTokenResponse
  /-- `http.NewRequest("GET", url, nil)`: the error, if any. -/
  httpNewRequest : String → Option GoError
  /-- `httpClient.Do` for a `GET` of `url` with `X-Nomad-Token: token`. -/
  httpDo : String → String → DoResult
  /-- The outcome of building the AWS session for a region. -/
  session : String → SessionResult
  /-- Whether `range credentials` visits `"accessor_id"` first; Go leaves the
  iteration order of a map unspecified. -/
  accessorFirst : Bool

/-- The mutable part of the outside world. -/
@[ext]
structure World where
  /-- The errors of the successive `net.Dial` calls still to come; `none`
  is a successful connection. -/
  dials : Nat → Option GoError
  /-- The results of the successive `http.Post` calls still to come. -/
  posts : Nat → PostResult
  /-- The parameter store, per region. -/
  ssm : String → SSM
  /-- The calls made so far, oldest first. -/
  trace : List Event

/-- Append an event to the trace. -/
def World.emit (w : World) (e : Event) : World :=
  { w with trace := w.trace ++ [e] }

/-- Consume the result of one `net.Dial` call. -/
def World.popDial (w : World) : World :=
  { w with dials := fun n => w.dials (n + 1) }

/-- Consume the result of one `http.Post` call. -/
def World.popPost (w : World) : World :=
  { w with posts := fun n => w.posts (n + 1) }

/-- The `schema.ResourceData` of the resource: its five attributes and its
identifier. -/
structure ResourceData where
  /-- `d.Get("address")`. -/
  address : String
  /-- `d.Get("ssm_prefix")`. -/
  ssmPrefix : String
  /-- `d.Get("accessor_id")`. -/
  accessor_id : String
  /-- `d.Get("secret_id")`. -/
  secret_id : String
  /-- `d.Get("aws_region")`. -/
  aws_region : String
  /-- `d.Id()`. -/
  id : String
deriving DecidableEq, Repr

/-- `d.Set(key, value)` for the two computed attributes. -/
def ResourceData.Set (d : ResourceData) (key value : String) : ResourceData :=
  if key = "accessor_id" then { d with accessor_id := value }
  else if key = "secret_id" then { d with secret_id := value }
  else d

/-- `d.SetId(v)`. -/
def ResourceData.SetId (d : ResourceData) (v : String) : ResourceData :=
  { d with id := v }

/-- `fmt.Sprintf("%s/%s", prefix, key)`. -/
def paramName (pfx key : String) : String :=
  pfx ++ "/" ++ key

/-- The handle returned by `ssm.New(sess)`: it addresses one region. -/
structure SsmClient where
  region : String
deriving DecidableEq, Repr

/-- `getSsmClient(region)`: `none` is the panic of `session.Must`,
`some none` the nil client returned when the credentials cannot be fetched. -/
def getSsmClient (env : Env) (region : String) : Option (Option SsmClient) :=
  match env.session region with
  | .sessionError => none
  | .noCredentials => some none
  | .ready => some (some ⟨region⟩)

/-! ## `resourceNostrapAclTokenRead` -/

/-- The message of the error returned at line 199. -/
def credentialUnusableMsg : String :=
  "Cannot get data from cluster with ACL token. Either token is invalid or cluster has problems"

/-- The message of the error returned at line 138. -/
def alreadyBootstrappedMsg : String := "Nomad ACL Bootstrap was already done"

/-- Lines 170-187: the loop over `[]string{"accessor_id", "secret_id"}`.
The first component is `some o` when the loop body returned `o` from the
function, `none` when the loop ran to its end. -/
def fetchLoop (client : SsmClient) :
    List String → ResourceData → World → Option Outcome × ResourceData × World
  | [], d, w => (none, d, w)
  | key :: keys, d, w =>
    let param := paramName d.ssmPrefix key
    let w1 := w.emit (.getParameter client.region param true)
    match (w.ssm client.region).GetParameter param with
    | .error err =>
      if err.code = ErrCodeParameterNotFound then
        (some .ok, d.SetId "", w1)
      else
        (some (.error (.aws err)), d, w1)
    | .ok value =>
      let d1 := d.Set key value
      let d2 := if key = "accessor_id" then d1.SetId value else d1
      fetchLoop client keys d2 w1

/-- Lines 188-201: the authenticated `GET` of the node list. -/
def verifyProbe (env : Env) (d : ResourceData) (w : World) :
    Outcome × ResourceData × World :=
  let nodesEndpoint := d.address ++ NOMAD_NODES_ENDPOINT
  match env.httpNewRequest nodesEndpoint with
  | some err => (.error err, d, w)
  | none =>
    let w1 := w.emit (.httpGet nodesEndpoint d.secret_id)
    match env.httpDo nodesEndpoint d.secret_id with
    | .transportError err => (.error err, d, w1)
    | .response status =>
      if status ≠ 200 then
        (.error (.errorf credentialUnusableMsg), d, w1)
      else
        (.ok, d, w1)

/-- `resourceNostrapAclTokenRead(d, m)`. -/
def resourceNostrapAclTokenRead (env : Env) (d : ResourceData) (w : World) :
    Outcome × ResourceData × World :=
  match getSsmClient env d.aws_region with
  | none => (.panic, d, w)
  | some none => (.panic, d, w)
  | some (some client) =>
    match fetchLoop client ["accessor_id", "secret_id"] d w with
    | (some o, d1, w1) => (o, d1, w1)
    | (none, d1, w1) => verifyProbe env d1 w1

/-! ## `resourceNostrapAclTokenCreate` -/

/-- Lines 107-115: dial until a connection is made, sleeping
`WAIT_TIMEOUT` seconds after each failure. `none`: out of fuel. -/
def waitLoop : Nat → String → World → Option World
  | 0, _, _ => none
  | fuel + 1, sock, w =>
    let w1 := (w.emit (.dial "tcp" sock)).popDial
    match w.dials 0 with
    | some _ => waitLoop fuel sock (w1.emit (.sleep WAIT_TIMEOUT))
    | none => some w1

/-- Lines 118-143: post to the bootstrap endpoint until it answers 200.
`.ok token` is the `break` with the decoded token, `.error o` a `return`
(or panic) from inside the loop; the last component is the stack of deferred
calls, newest first. `none`: out of fuel. -/
def bootstrapLoop (env : Env) :
    Nat → String → World → List Event →
      Option (Except Outcome NostrapAclTokenResponse × World × List Event)
  | 0, _, _, _ => none
  | fuel + 1, nostrapEndpoint, w, defers =>
    let w1 := (w.emit (.post nostrapEndpoint "application/json")).popPost
    match w.posts 0 with
    | .transportError err => some (.error (.error err), w1, defers)
    | .response status body =>
      if status = 200 then
        match body with
        | none => some (.error .panic, w1, defers)
        | some b =>
          match env.jsonDecode b with
          | .error err => some (.error (.error err), w1, Event.closeBody :: defers)
          | .ok token => some (.ok token, w1, Event.closeBody :: defers)
      else
        match body with
        | some b =>
          if stringsContains b ALREADY_DONE_MARKER then
            some (.error (.error (.errorf alreadyBootstrappedMsg)), w1,
              Event.closeBody :: defers)
          else
            bootstrapLoop env fuel nostrapEndpoint (w1.emit (.sleep WAIT_TIMEOUT))
              (Event.closeBody :: defers)
        | none =>
          bootstrapLoop env fuel nostrapEndpoint (w1.emit (.sleep WAIT_TIMEOUT)) defers

/-- Lines 145-148 together with the order in which `range` visits the map. -/
def credentials (env : Env) (token : NostrapAclTokenResponse) : List (String × String) :=
  if env.accessorFirst then
    [("accessor_id", token.AccessorID), ("secret_id", token.SecretID)]
  else
    [("secret_id", token.SecretID), ("accessor_id", token.AccessorID)]

/-- Store `s` as the state of `region`. -/
def World.setSsm (w : World) (region : String) (s : SSM) : World :=
  { w with ssm := fun r => if r = region then s else w.ssm r }

/-- Lines 150-161: write each credential under `<prefix>/<key>`, returning
on the first error. A nil client panics at the first call. The first
component is `some o` when the loop body left the function with `o`. -/
def putLoop (client : Option SsmClient) (pfx : String) :
    List (String × String) → World → Option Outcome × World
  | [], w => (none, w)
  | (key, value) :: rest, w =>
    match client with
    | none => (some .panic, w)
    | some c =>
      let param := paramName pfx key
      let w1 := w.emit (.putParameter c.region param value "SecureString" true)
      match (w.ssm c.region).PutParameter param value true with
      | .error err => (some (.error (.aws err)), w1)
      | .ok s => putLoop client pfx rest (w1.setSsm c.region s)

/-- Lines 145-162: store the token and hand over to
`resourceNostrapAclTokenRead`. -/
def storeAndRead (env : Env) (d : ResourceData) (token : NostrapAclTokenResponse)
    (w : World) : Outcome × ResourceData × World :=
  match getSsmClient env d.aws_region with
  | none => (.panic, d, w)
  | some client =>
    match putLoop client d.ssmPrefix (credentials env token) w with
    | (some o, w1) => (o, d, w1)
    | (none, w1) => resourceNostrapAclTokenRead env d w1

/-- Lines 117-162: what `resourceNostrapAclTokenCreate` does once the wait
loop has ended, with the deferred `conn.Close()` pending. The last component
is the stack of deferred calls at the `return`. -/
def bootstrapAndStore (env : Env) (fuel : Nat) (d : ResourceData) (w : World) :
    Option (Outcome × ResourceData × World × List Event) :=
  match bootstrapLoop env fuel (d.address ++ NOMAD_BOOTSTRAP_ENDPOINT) w [Event.closeConn] with
  | none => none
  | some (.error o, w1, defers) => some (o, d, w1, defers)
  | some (.ok token, w1, defers) =>
    match storeAndRead env d token w1 with
    | (o, d1, w2) => some (o, d1, w2, defers)

/-- The body of `resourceNostrapAclTokenCreate` up to its `return`, with the
deferred calls still pending. -/
def createBody (env : Env) (fuel : Nat) (d : ResourceData) (w : World) :
    Option (Outcome × ResourceData × World × List Event) :=
  match env.parseRequestURI d.address with
  | .error err => some (.error err, d, w, [])
  | .ok url =>
    match waitLoop fuel (nomadSocket url) w with
    | none => none
    | some w1 => bootstrapAndStore env fuel d w1

/-- Run the deferred calls, newest first. -/
def runDeferred (defers : List Event) (w : World) : World :=
  defers.foldl World.emit w

/-- `resourceNostrapAclTokenCreate(d, m)`: the outcome, the resource data
and the world at the end of the call. `none`: one of the two loops ran out
of fuel. -/
def resourceNostrapAclTokenCreate (env : Env) (fuel : Nat) (d : ResourceData) (w : World) :
    Option (Outcome × ResourceData × World) :=
  match createBody env fuel d w with
  | none => none
  | some (o, d1, w1, defers) => some (o, d1, runDeferred defers w1)

/-- `resourceNostrapAclTokenUpdate(d, m)`. -/
def resourceNostrapAclTokenUpdate (d : ResourceData) (w : World) :
    Outcome × ResourceData × World :=
  (.ok, d, w)

/-- `resourceNostrapAclTokenDelete(d, m)`. -/
def resourceNostrapAclTokenDelete (d : ResourceData) (w : World) :
    Outcome × ResourceData × World :=
  (.ok, d, w)

/-! ## A test double -/

/-- An empty parameter store that serves every request. -/
def emptySSM : SSM :=
  { params := fun _ => none, putError := fun _ => none, getError := fun _ => none }

/-- The token of the end-to-end scenario. -/
def scenarioToken : NostrapAclTokenResponse :=
  { AccessorID := "abc", SecretID := "xyz", Name := "Bootstrap Token", Type_ := "management",
    Policies := "", Global := true, CreateTime := "", CreateIndex := 7, ModifyIndex := 7 }

/-- The body of the scenario's bootstrap response. -/
def scenarioBody : String := "\x7b\"AccessorID\":\"abc\",\"SecretID\":\"xyz\"\x7d"

/-- Library answers for the end-to-end scenario. -/
def scenarioEnv (accessorFirst : Bool) : Env :=
  { parseRequestURI := fun a =>
      if a = "https://cluster.internal" then .ok ⟨"https", "cluster.internal"⟩
      else if a = "ftp://files.internal" then .ok ⟨"ftp", "files.internal"⟩
      else .error (.lib "invalid URI for request"),
    jsonDecode := fun b =>
      if b = scenarioBody then .ok scenarioToken else .error (.lib "invalid character"),
    httpNewRequest := fun _ => none,
    httpDo := fun _ token => if token = "xyz" then .response 200 else .response 403,
    session := fun _ => .ready,
    accessorFirst := accessorFirst }

/-- A world of the end-to-end scenario: three refused connections, then
success; the first post answers 200 with the scenario body. -/
def scenarioWorld : World :=
  { dials := fun n => if n < 3 then some (.lib "connection refused") else none,
    posts := fun _ => .response 200 (some scenarioBody),
    ssm := fun _ => emptySSM,
    trace := [] }

/-- A world whose cluster was bootstrapped before: the port accepts the
first connection, the first post finds no leader yet, the second is told
that the bootstrap was already done. -/
def alreadyWorld : World :=
  { dials := fun _ => none,
    posts := fun n =>
      if n < 1 then .response 500 (some "No cluster leader")
      else .response 400 (some "ACL bootstrap already done (reset index: 7)"),
    ssm := fun _ => emptySSM,
    trace := [] }

/-- A world whose bootstrap endpoint answers 500 twice, once without a
body, and then 200 with the scenario body. -/
def retryWorld : World :=
  { dials := fun _ => none,
    posts := fun n =>
      if n < 1 then .response 500 (some "No cluster leader")
      else if n < 2 then .response 503 none
      else .response 200 (some scenarioBody),
    ssm := fun _ => emptySSM,
    trace := [] }

/-- A world whose bootstrap endpoint drops the connection: the port accepts
the first connection and every post fails in the transport. -/
def resetWorld : World :=
  { dials := fun _ => none,
    posts := fun _ => .transportError (.lib "connection reset by peer"),
    ssm := fun _ => emptySSM,
    trace := [] }

/-- A world whose parameter store holds the scenario's credential. -/
def storedWorld : World :=
  { dials := fun _ => none,
    posts := fun _ => .response 200 (some scenarioBody),
    ssm := fun _ =>
      { emptySSM with
        params := fun k =>
          if k = "prefix/accessor_id" then some "abc"
          else if k = "prefix/secret_id" then some "revoked"
          else none },
    trace := [] }

/-- A world whose parameter store holds the accessor only. -/
def halfStoredWorld : World :=
  { storedWorld with
    ssm := fun _ =>
      { emptySSM with
        params := fun k => if k = "prefix/accessor_id" then some "abc" else none } }

/-- Library answers for addresses at the edge of what `url.ParseRequestURI`
accepts: a host with a colon and no port after it, a host with a port, and
an absolute path with neither scheme nor host. -/
def edgeEnv : Env :=
  { scenarioEnv true with
    parseRequestURI := fun a =>
      if a = "http://cluster.internal:" then .ok ⟨"http", "cluster.internal:"⟩
      else if a = "http://cluster.internal:4646" then .ok ⟨"http", "cluster.internal:4646"⟩
      else if a = "/nomad" then .ok ⟨"", ""⟩
      else .error (.lib "invalid URI for request") }

/-- A world in which `net.Dial` fails on every attempt, as it does for an
address it cannot split into host and port. -/
def refusingWorld : World :=
  { dials := fun _ => some (.lib "too many colons in address"),
    posts := fun _ => .response 200 (some scenarioBody),
    ssm := fun _ => emptySSM,
    trace := [] }

/-- The resource data of the end-to-end scenario. -/
def scenarioData : ResourceData :=
  { address := "https://cluster.internal", ssmPrefix := "prefix", accessor_id := "",
    secret_id := "", aws_region := "eu-west-1", id := "" }

/-! ## Vocabulary for the statements -/

/-- The trace of `n` failed rounds of a retry loop: the call `e`, then the
sleep of `WAIT_TIMEOUT` seconds, `n` times over. -/
def retryTrace (e : Event) : Nat → List Event
  | 0 => []
  | n + 1 => e :: Event.sleep WAIT_TIMEOUT :: retryTrace e n

/-- Whether an event is a `net.Dial`. -/
def Event.isDial : Event → Bool
  | .dial _ _ => true
  | _ => false

/-- Whether an event is a `time.Sleep`. -/
def Event.isSleep : Event → Bool
  | .sleep _ => true
  | _ => false

/-- Whether an event is an `http.Post`. -/
def Event.isPost : Event → Bool
  | .post _ _ => true
  | _ => false

/-- A bootstrap answer that sends the loop round again: a response whose
status is not 200 and whose body, if any, lacks the marker. -/
def PostResult.transient : PostResult → Bool
  | .transportError _ => false
  | .response status body =>
    decide (status ≠ 200) &&
      (match body with
       | none => true
       | some b => !stringsContains b ALREADY_DONE_MARKER)

/-- The deferred `resp.Body.Close()` calls left behind by the first `k`
answers of `posts`, newest first: one per answer that has a body. -/
def pendingCloses (posts : Nat → PostResult) : Nat → List Event
  | 0 => []
  | k + 1 =>
    pendingCloses (fun n => posts (n + 1)) k ++
      (match posts 0 with
       | .response _ (some _) => [Event.closeBody]
       | _ => [])

/-- The world after the wait loop met `n` failed dials of `sock` and then a
successful one. -/
def World.afterWait (w : World) (sock : String) (n : Nat) : World :=
  { w with
    dials := fun i => w.dials (i + (n + 1)),
    trace := w.trace ++ retryTrace (.dial "tcp" sock) n ++ [.dial "tcp" sock] }

/-- The world after the bootstrap loop made `k + 1` posts to `url`, sleeping
after each of the first `k`. -/
def World.afterPosts (w : World) (url : String) (k : Nat) : World :=
  { w with
    posts := fun i => w.posts (i + (k + 1)),
    trace := w.trace ++ retryTrace (.post url "application/json") k ++
      [.post url "application/json"] }

/-- The world after the bootstrap loop went `k` rounds that ended in the
sleep. -/
def World.afterRetries (w : World) (url : String) (k : Nat) : World :=
  { w with
    posts := fun i => w.posts (i + k),
    trace := w.trace ++ retryTrace (.post url "application/json") k }

/-- The `PutParameter` events of the write loop, in the order of the loop. -/
def putEvents (region pfx : String) (creds : List (String × String)) : List Event :=
  creds.map fun kv => Event.putParameter region (paramName pfx kv.1) kv.2 "SecureString" true

/-- The parameter store serves writes and reads of `name` in `region`. -/
def World.Serves (w : World) (region name : String) : Prop :=
  (w.ssm region).putError name = none ∧ (w.ssm region).getError name = none

/-! ## `strings.Contains` is the substring relation -/

theorem hasPrefix_iff : ∀ (s p : List Char), hasPrefix s p = true ↔ p <+: s := by
  intro s
  induction s with
  | nil =>
    intro p
    cases p <;> simp [hasPrefix]
  | cons c s ih =>
    intro p
    cases p with
    | nil => simp [hasPrefix]
    | cons x ps =>
      simp only [hasPrefix, Bool.and_eq_true, beq_iff_eq, ih, List.cons_prefix_cons]
      constructor
      · rintro ⟨h1, h2⟩; exact ⟨h1.symm, h2⟩
      · rintro ⟨h1, h2⟩; exact ⟨h1.symm, h2⟩

theorem containsChars_iff : ∀ (s sub : List Char), containsChars s sub = true ↔ sub <:+: s := by
  intro s
  induction s with
  | nil =>
    intro sub
    simp only [containsChars, hasPrefix_iff, List.prefix_nil, List.infix_nil]
  | cons c s ih =>
    intro sub
    simp only [containsChars, Bool.or_eq_true, hasPrefix_iff, ih, List.infix_cons_iff]

/-- `stringsContains s substr` holds exactly when `substr` occurs in `s` as
a contiguous run of characters. -/
theorem stringsContains_iff (s substr : String) :
    stringsContains s substr = true ↔ substr.data <:+: s.data :=
  containsChars_iff s.data substr.data

/-! ## The wait loop -/

theorem retryTrace_countP_self (e : Event) (p : Event → Bool) (he : p e = true)
    (hs : p (Event.sleep WAIT_TIMEOUT) = false) (n : Nat) :
    (retryTrace e n).countP p = n := by
  induction n with
  | zero => rfl
  | succ n ih => simp [retryTrace, List.countP_cons, he, hs, ih]

theorem retryTrace_countP_sleep (e : Event) (he : e.isSleep = false) (n : Nat) :
    (retryTrace e n).countP Event.isSleep = n := by
  induction n with
  | zero => rfl
  | succ n ih =>
    have hs : (Event.sleep WAIT_TIMEOUT).isSleep = true := rfl
    simp [retryTrace, List.countP_cons, he, hs, ih]

theorem waitLoop_spec (sock : String) (n : Nat) :
    ∀ (fuel : Nat) (w : World), (∀ i, i < n → (w.dials i).isSome = true) →
      w.dials n = none → n < fuel → waitLoop fuel sock w = some (w.afterWait sock n) := by
  induction n with
  | zero =>
    intro fuel w _ h0 hf
    obtain ⟨f, rfl⟩ : ∃ f, fuel = f + 1 := ⟨fuel - 1, by omega⟩
    simp only [waitLoop, h0]
    congr 1
    ext <;> simp [World.afterWait, World.emit, World.popDial, retryTrace]
  | succ n ih =>
    intro fuel w hn h0 hf
    obtain ⟨f, rfl⟩ : ∃ f, fuel = f + 1 := ⟨fuel - 1, by omega⟩
    have h00 := hn 0 (by omega)
    obtain ⟨e, he⟩ := Option.isSome_iff_exists.mp h00
    simp only [waitLoop, he]
    rw [ih f _ (fun i hi => hn (i + 1) (by omega)) h0 (by omega)]
    congr 1
    ext <;> simp [World.afterWait, World.emit, World.popDial, retryTrace, Nat.add_assoc]

theorem bootstrapLoop_transient (env : Env) (url : String) (k : Nat) :
    ∀ (fuel : Nat) (w : World) (defers : List Event),
      (∀ i, i < k → (w.posts i).transient = true) →
      bootstrapLoop env (fuel + k) url w defers =
        bootstrapLoop env fuel url (w.afterRetries url k) (pendingCloses w.posts k ++ defers) := by
  induction k with
  | zero =>
    intro fuel w defers _
    have hw : w.afterRetries url 0 = w := by
      ext <;> simp [World.afterRetries, retryTrace]
    simp [hw, pendingCloses]
  | succ k ih =>
    intro fuel w defers hk
    have h0 := hk 0 (by omega)
    have hstep : ∀ (w1 : World) (ds : List Event),
        w1 = ((w.emit (.post url "application/json")).popPost).emit (.sleep WAIT_TIMEOUT) →
        bootstrapLoop env (fuel + k) url w1 ds =
          bootstrapLoop env fuel url (w.afterRetries url (k + 1))
            (pendingCloses (fun n => w.posts (n + 1)) k ++ ds) := by
      intro w1 ds hw1
      subst hw1
      rw [ih fuel _ ds (fun i hi => hk (i + 1) (by omega))]
      congr 1
      ext <;> simp [World.afterRetries, World.emit, World.popPost, retryTrace, Nat.add_assoc]
    rw [show fuel + (k + 1) = (fuel + k) + 1 from rfl]
    cases hp : w.posts 0 with
    | transportError e => simp [hp, PostResult.transient] at h0
    | response status body =>
      rw [hp] at h0
      cases body with
      | none =>
        simp only [PostResult.transient, Bool.and_true, decide_eq_true_eq] at h0
        simp only [bootstrapLoop, hp, if_neg h0]
        rw [hstep _ _ rfl]
        simp [pendingCloses, hp]
      | some b =>
        simp only [PostResult.transient, Bool.and_eq_true, decide_eq_true_eq,
          Bool.not_eq_true'] at h0
        simp only [bootstrapLoop, hp, if_neg h0.1, h0.2]
        rw [hstep _ _ rfl]
        simp [pendingCloses, hp]

theorem afterRetries_step (w : World) (url : String) (k : Nat) :
    ((w.afterRetries url k).emit (.post url "application/json")).popPost =
      w.afterPosts url k := by
  ext <;> simp [World.afterRetries, World.afterPosts, World.emit, World.popPost, Nat.add_assoc,
    Nat.add_comm 1 k]

/-- After `k` transient answers, an answer of 200 with a body that decodes
ends the loop with the decoded token. -/
theorem bootstrapLoop_success (env : Env) (url : String) (k fuel : Nat) (w : World)
    (defers : List Event) (body : String) (token : NostrapAclTokenResponse)
    (hk : ∀ i, i < k → (w.posts i).transient = true)
    (h200 : w.posts k = .response 200 (some body))
    (hdec : env.jsonDecode body = .ok token) (hf : k < fuel) :
    bootstrapLoop env fuel url w defers =
      some (.ok token, w.afterPosts url k,
        Event.closeBody :: (pendingCloses w.posts k ++ defers)) := by
  obtain ⟨f, rfl⟩ : ∃ f, fuel = (f + 1) + k := ⟨fuel - k - 1, by omega⟩
  rw [bootstrapLoop_transient env url k (f + 1) w defers hk]
  have hp : (w.afterRetries url k).posts 0 = .response 200 (some body) := by
    simp [World.afterRetries, h200]
  simp only [bootstrapLoop, hp, hdec, if_true, afterRetries_step]

/-- After `k` transient answers, a non-200 answer whose body holds the
marker ends the loop with the error of line 138. -/
theorem bootstrapLoop_already (env : Env) (url : String) (k fuel : Nat) (w : World)
    (defers : List Event) (status : Int) (body : String)
    (hk : ∀ i, i < k → (w.posts i).transient = true)
    (hresp : w.posts k = .response status (some body)) (hstatus : status ≠ 200)
    (hmark : stringsContains body ALREADY_DONE_MARKER = true) (hf : k < fuel) :
    bootstrapLoop env fuel url w defers =
      some (.error (.error (.errorf alreadyBootstrappedMsg)), w.afterPosts url k,
        Event.closeBody :: (pendingCloses w.posts k ++ defers)) := by
  obtain ⟨f, rfl⟩ : ∃ f, fuel = (f + 1) + k := ⟨fuel - k - 1, by omega⟩
  rw [bootstrapLoop_transient env url k (f + 1) w defers hk]
  have hp : (w.afterRetries url k).posts 0 = .response status (some body) := by
    simp [World.afterRetries, hresp]
  simp only [bootstrapLoop, hp, if_neg hstatus, hmark, if_true, afterRetries_step]

/-- After `k` transient answers, a transport error ends the loop with that
error. -/
theorem bootstrapLoop_transport (env : Env) (url : String) (k fuel : Nat) (w : World)
    (defers : List Event) (err : GoError)
    (hk : ∀ i, i < k → (w.posts i).transient = true)
    (herr : w.posts k = .transportError err) (hf : k < fuel) :
    bootstrapLoop env fuel url w defers =
      some (.error (.error err), w.afterPosts url k, pendingCloses w.posts k ++ defers) := by
  obtain ⟨f, rfl⟩ : ∃ f, fuel = (f + 1) + k := ⟨fuel - k - 1, by omega⟩
  rw [bootstrapLoop_transient env url k (f + 1) w defers hk]
  have hp : (w.afterRetries url k).posts 0 = .transportError err := by
    simp [World.afterRetries, herr]
  simp only [bootstrapLoop, hp, afterRetries_step]

theorem runDeferred_trace (defers : List Event) (w : World) :
    runDeferred defers w = { w with trace := w.trace ++ defers } := by
  induction defers generalizing w with
  | nil => simp [runDeferred]
  | cons e es ih =>
    simp only [runDeferred, List.foldl_cons] at ih ⊢
    rw [ih]
    simp [World.emit]

/-! ## The parameter store -/

theorem paramName_data (pfx key : String) :
    (paramName pfx key).data = pfx.data ++ '/' :: key.data := by
  simp [paramName, String.data_append]

theorem paramName_ne (pfx : String) :
    paramName pfx "accessor_id" ≠ paramName pfx "secret_id" := by
  intro h
  have h1 := congrArg String.data h
  rw [paramName_data, paramName_data] at h1
  have h2 := List.append_cancel_left h1
  revert h2
  decide

theorem putParameter_served (s : SSM) (name value : String) (h : s.putError name = none) :
    s.PutParameter name value true =
      .ok { s with params := fun k => if k = name then some value else s.params k } := by
  simp [SSM.PutParameter, h]

/-- The write loop over two entries whose writes are served. -/
theorem putLoop_two (region pfx k1 v1 k2 v2 : String) (w : World)
    (h1 : (w.ssm region).putError (paramName pfx k1) = none)
    (h2 : (w.ssm region).putError (paramName pfx k2) = none) :
    putLoop (some ⟨region⟩) pfx [(k1, v1), (k2, v2)] w =
      (none,
        { w with
          ssm := fun r =>
            if r = region then
              { w.ssm region with
                params := fun k =>
                  if k = paramName pfx k2 then some v2
                  else if k = paramName pfx k1 then some v1
                  else (w.ssm region).params k }
            else w.ssm r,
          trace := w.trace ++ putEvents region pfx [(k1, v1), (k2, v2)] }) := by
  simp only [putLoop]
  rw [putParameter_served _ _ _ h1]
  simp only [World.setSsm, World.emit, if_true]
  rw [putParameter_served _ _ _ (by exact h2)]
  simp only [Prod.mk.injEq, true_and]
  apply World.ext
  · rfl
  · rfl
  · funext r
    by_cases hr : r = region <;> simp [hr]
  · simp [putEvents]

/-- The write loop over a store that serves both names: both values are
stored, whichever comes first, and nothing else changes. -/
theorem putLoop_credentials (env : Env) (region pfx : String)
    (token : NostrapAclTokenResponse) (w : World)
    (ha : w.Serves region (paramName pfx "accessor_id"))
    (hs : w.Serves region (paramName pfx "secret_id")) :
    ∃ w1, putLoop (some ⟨region⟩) pfx (credentials env token) w = (none, w1) ∧
      w1.trace = w.trace ++ putEvents region pfx (credentials env token) ∧
      w1.dials = w.dials ∧ w1.posts = w.posts ∧
      (w1.ssm region).params (paramName pfx "accessor_id") = some token.AccessorID ∧
      (w1.ssm region).params (paramName pfx "secret_id") = some token.SecretID ∧
      (w1.ssm region).GetParameter (paramName pfx "accessor_id") = .ok token.AccessorID ∧
      (w1.ssm region).GetParameter (paramName pfx "secret_id") = .ok token.SecretID ∧
      (∀ r, r ≠ region → w1.ssm r = w.ssm r) ∧
      (∀ name, name ≠ paramName pfx "accessor_id" → name ≠ paramName pfx "secret_id" →
        (w1.ssm region).params name = (w.ssm region).params name) := by
  have hne := paramName_ne pfx
  obtain ⟨hap, hag⟩ := ha
  obtain ⟨hsp, hsg⟩ := hs
  cases hord : env.accessorFirst
  · have hc : credentials env token =
        [("secret_id", token.SecretID), ("accessor_id", token.AccessorID)] := by
      simp [credentials, hord]
    rw [hc]
    refine ⟨_, putLoop_two region pfx _ _ _ _ w hsp hap, ?_⟩
    simp only [SSM.GetParameter, if_true, hag, hsg, if_neg hne.symm, true_and]
    refine ⟨fun r hr => by simp [hr], fun name h1 h2 => by simp [h1, h2]⟩
  · have hc : credentials env token =
        [("accessor_id", token.AccessorID), ("secret_id", token.SecretID)] := by
      simp [credentials, hord]
    rw [hc]
    refine ⟨_, putLoop_two region pfx _ _ _ _ w hap hsp, ?_⟩
    simp only [SSM.GetParameter, if_true, hag, hsg, if_neg hne, true_and]
    refine ⟨fun r hr => by simp [hr], fun name h1 h2 => by simp [h1, h2]⟩

/-- The fetch loop when both values are found. -/
theorem fetchLoop_found (c : SsmClient) (d : ResourceData) (w : World) (a s : String)
    (ha : (w.ssm c.region).GetParameter (paramName d.ssmPrefix "accessor_id") = .ok a)
    (hs : (w.ssm c.region).GetParameter (paramName d.ssmPrefix "secret_id") = .ok s) :
    fetchLoop c ["accessor_id", "secret_id"] d w =
      (none, { d with accessor_id := a, secret_id := s, id := a },
        { w with trace := w.trace ++
            [.getParameter c.region (paramName d.ssmPrefix "accessor_id") true,
             .getParameter c.region (paramName d.ssmPrefix "secret_id") true] }) := by
  simp [fetchLoop, ha, hs, ResourceData.Set, ResourceData.SetId, World.emit]

/-! ## The trace only grows -/

/-- Whatever the bootstrap loop ends in, its first call was the post. -/
theorem bootstrapLoop_first_post (env : Env) (url : String) :
    ∀ (fuel : Nat) (w : World) (defers : List Event)
      (r : Except Outcome NostrapAclTokenResponse × World × List Event),
      bootstrapLoop env fuel url w defers = some r →
      ∃ rest, r.2.1.trace = w.trace ++ Event.post url "application/json" :: rest := by
  intro fuel
  induction fuel with
  | zero => intro w defers r h; simp [bootstrapLoop] at h
  | succ f ih =>
    intro w defers r h
    have hrec : ∀ ds, bootstrapLoop env f url
        (((w.emit (.post url "application/json")).popPost).emit (.sleep WAIT_TIMEOUT)) ds
          = some r →
        ∃ rest, r.2.1.trace = w.trace ++ Event.post url "application/json" :: rest := by
      intro ds h1
      obtain ⟨rest, hr⟩ := ih _ _ _ h1
      exact ⟨Event.sleep WAIT_TIMEOUT :: Event.post url "application/json" :: rest, by
        simp [hr, World.emit, World.popPost]⟩
    have hend : ∀ (x : Except Outcome NostrapAclTokenResponse) (ds : List Event),
        some (x, (w.emit (.post url "application/json")).popPost, ds) = some r →
        ∃ rest, r.2.1.trace = w.trace ++ Event.post url "application/json" :: rest := by
      intro x ds h1
      cases h1
      exact ⟨[], by simp [World.emit, World.popPost]⟩
    simp only [bootstrapLoop] at h
    split at h
    · exact hend _ _ h
    · split at h
      · split at h
        · exact hend _ _ h
        · split at h
          · exact hend _ _ h
          · exact hend _ _ h
      · split at h
        · split at h
          · exact hend _ _ h
          · exact hrec _ h
        · exact hrec _ h

theorem putLoop_grows (client : Option SsmClient) (pfx : String) :
    ∀ (creds : List (String × String)) (w : World),
      ∃ rest, (putLoop client pfx creds w).2.trace = w.trace ++ rest := by
  intro creds
  induction creds with
  | nil => intro w; exact ⟨[], by simp [putLoop]⟩
  | cons kv rest ih =>
    intro w
    obtain ⟨key, value⟩ := kv
    cases client with
    | none => exact ⟨[], by simp [putLoop]⟩
    | some c =>
      simp only [putLoop]
      split
      · exact ⟨_, rfl⟩
      · obtain ⟨r, hr⟩ := ih ((w.emit (.putParameter c.region (paramName pfx key) value
          "SecureString" true)).setSsm c.region (by assumption))
        exact ⟨_, by rw [hr]; simp [World.emit, World.setSsm]; rfl⟩

theorem fetchLoop_grows (client : SsmClient) :
    ∀ (keys : List String) (d : ResourceData) (w : World),
      ∃ rest, (fetchLoop client keys d w).2.2.trace = w.trace ++ rest := by
  intro keys
  induction keys with
  | nil => intro d w; exact ⟨[], by simp [fetchLoop]⟩
  | cons key keys ih =>
    intro d w
    simp only [fetchLoop]
    split
    · split
      · exact ⟨_, rfl⟩
      · exact ⟨_, rfl⟩
    · obtain ⟨r, hr⟩ := ih (if key = "accessor_id" then ((d.Set key (by assumption)).SetId
        (by assumption)) else d.Set key (by assumption))
          (w.emit (.getParameter client.region (paramName d.ssmPrefix key) true))
      exact ⟨_, by rw [hr]; simp [World.emit]; rfl⟩

theorem verifyProbe_grows (env : Env) (d : ResourceData) (w : World) :
    ∃ rest, (verifyProbe env d w).2.2.trace = w.trace ++ rest := by
  simp only [verifyProbe]
  split
  · exact ⟨[], by simp⟩
  · split
    · exact ⟨_, rfl⟩
    · split
      · exact ⟨_, rfl⟩
      · exact ⟨_, rfl⟩

theorem read_grows (env : Env) (d : ResourceData) (w : World) :
    ∃ rest, (resourceNostrapAclTokenRead env d w).2.2.trace = w.trace ++ rest := by
  simp only [resourceNostrapAclTokenRead]
  split
  · exact ⟨[], by simp⟩
  · exact ⟨[], by simp⟩
  · rename_i client _
    obtain ⟨r1, h1⟩ := fetchLoop_grows client ["accessor_id", "secret_id"] d w
    split
    · rename_i heq
      rw [heq] at h1
      exact ⟨r1, h1⟩
    · rename_i d1 w1 heq
      rw [heq] at h1
      obtain ⟨r2, h2⟩ := verifyProbe_grows env d1 w1
      exact ⟨r1 ++ r2, by rw [h2]; simp at h1; simp [h1]⟩

theorem storeAndRead_grows (env : Env) (d : ResourceData) (token : NostrapAclTokenResponse)
    (w : World) : ∃ rest, (storeAndRead env d token w).2.2.trace = w.trace ++ rest := by
  simp only [storeAndRead]
  split
  · exact ⟨[], by simp⟩
  · rename_i client _
    obtain ⟨r1, h1⟩ := putLoop_grows client d.ssmPrefix (credentials env token) w
    split
    · rename_i heq
      rw [heq] at h1
      exact ⟨r1, h1⟩
    · rename_i w1 heq
      rw [heq] at h1
      obtain ⟨r2, h2⟩ := read_grows env d w1
      exact ⟨r1 ++ r2, by rw [h2]; simp at h1; simp [h1]⟩

/-- Whatever `bootstrapAndStore` ends in, its first call was the post to
the bootstrap endpoint. -/
theorem bootstrapAndStore_first_post (env : Env) (fuel : Nat) (d : ResourceData) (w : World)
    (r : Outcome × ResourceData × World × List Event)
    (h : bootstrapAndStore env fuel d w = some r) :
    ∃ rest, r.2.2.1.trace =
      w.trace ++ Event.post (d.address ++ NOMAD_BOOTSTRAP_ENDPOINT) "application/json" :: rest := by
  simp only [bootstrapAndStore] at h
  split at h
  · simp at h
  · rename_i heq
    cases h
    exact bootstrapLoop_first_post env _ _ _ _ _ heq
  · rename_i token w1 defers heq
    obtain ⟨r1, h1⟩ := bootstrapLoop_first_post env _ _ _ _ _ heq
    obtain ⟨r2, h2⟩ := storeAndRead_grows env d token w1
    cases h
    exact ⟨r1 ++ r2, by simp at h1; simp [h2, h1]⟩

/-! ## Endpoint resolution -/

theorem lastIndexByte_some (c : Char) :
    ∀ (s : List Char) (i : Nat), lastIndexByte s c = some i →
      s = s.take i ++ c :: s.drop (i + 1) := by
  intro s
  induction s with
  | nil => intro i h; simp [lastIndexByte] at h
  | cons x s ih =>
    intro i h
    simp only [lastIndexByte] at h
    cases hl : lastIndexByte s c with
    | some j =>
      rw [hl] at h
      simp only [Option.some.injEq] at h
      subst h
      have := ih j hl
      simp only [List.take_succ_cons, List.drop_succ_cons, List.cons_append]
      rw [← this]
    | none =>
      rw [hl] at h
      by_cases hx : x = c
      · simp only [hx, if_true, Option.some.injEq] at h
        subst h
        simp [hx]
      · simp [hx] at h

/-- A non-empty port is what follows the last colon of the host. -/
theorem splitHostPort_port (hostPort : List Char) (h : (splitHostPort hostPort).2 ≠ []) :
    ∃ pre, hostPort = pre ++ ':' :: (splitHostPort hostPort).2 := by
  have hsnd : (splitHostPort hostPort).2 =
      (match lastIndexByte hostPort ':' with
        | some colon =>
          if validOptionalPort (hostPort.drop colon) then
            (hostPort.take colon, hostPort.drop (colon + 1))
          else (hostPort, [])
        | none => (hostPort, [])).2 := by
    simp only [splitHostPort]
    split <;> rfl
  rw [hsnd] at h ⊢
  cases hl : lastIndexByte hostPort ':' with
  | none => simp [hl] at h
  | some colon =>
    simp only [hl] at h ⊢
    by_cases hv : validOptionalPort (hostPort.drop colon) = true
    · simp only [hv, if_true]
      exact ⟨hostPort.take colon, lastIndexByte_some ':' hostPort colon hl⟩
    · simp [hv] at h

theorem port_ne_empty_iff (u : URL) : u.Port ≠ "" ↔ (splitHostPort u.Host.data).2 ≠ [] := by
  simp only [URL.Port, ne_eq]
  constructor
  · intro h h1
    exact h (by rw [h1])
  · intro h h1
    exact h (congrArg String.data h1)

/-- With an explicit port the dial target is the host as given, which ends
in a colon and that port. -/
theorem nomadSocket_explicit_port (u : URL) (h : u.Port ≠ "") :
    nomadSocket u = u.Host ∧ ∃ pre : String, u.Host = pre ++ ":" ++ u.Port := by
  refine ⟨by simp [nomadSocket, h], ?_⟩
  obtain ⟨pre, hpre⟩ := splitHostPort_port u.Host.data ((port_ne_empty_iff u).mp h)
  refine ⟨⟨pre⟩, ?_⟩
  apply String.ext
  simp only [String.data_append, URL.Port]
  exact hpre.trans (by simp)

/-- When the address parses and `n` dials fail before one succeeds, the
function goes on with the bootstrap in the world left by the wait loop. -/
theorem createBody_ready (env : Env) (fuel : Nat) (d : ResourceData) (w : World) (u : URL)
    (n : Nat) (hparse : env.parseRequestURI d.address = .ok u)
    (hrefused : ∀ i, i < n → (w.dials i).isSome = true) (haccept : w.dials n = none)
    (hn : n < fuel) :
    createBody env fuel d w = bootstrapAndStore env fuel d (w.afterWait (nomadSocket u) n) := by
  simp only [createBody, hparse, waitLoop_spec (nomadSocket u) n fuel w hrefused haccept hn]

/-! ## The claims -/

/-- While every dial fails the wait loop does not end, whatever the fuel. -/
theorem waitLoop_refused_forever (sock : String) :
    ∀ (fuel : Nat) (w : World), (∀ i, (w.dials i).isSome = true) →
      waitLoop fuel sock w = none := by
  intro fuel
  induction fuel with
  | zero => intro w _; rfl
  | succ f ih =>
    intro w h
    obtain ⟨e, he⟩ := Option.isSome_iff_exists.mp (h 0)
    simp only [waitLoop, he]
    exact ih _ (fun i => h (i + 1))

/-- While every dial fails `resourceNostrapAclTokenCreate` does not return
once the address has parsed. -/
theorem create_refused_forever (env : Env) (fuel : Nat) (d : ResourceData) (w : World) (u : URL)
    (hparse : env.parseRequestURI d.address = .ok u)
    (hrefused : ∀ i, (w.dials i).isSome = true) :
    resourceNostrapAclTokenCreate env fuel d w = none := by
  simp [resourceNostrapAclTokenCreate, createBody, hparse,
    waitLoop_refused_forever (nomadSocket u) fuel w hrefused]

/-- C1 fails on the code at the address `http://cluster.internal:`, which
`url.ParseRequestURI` accepts with host `cluster.internal:`. `Port()` is
empty and `Hostname()` is `cluster.internal`, so the claim's dial target is
`cluster.internal:80`; lines 96-103 append the default port to `url.Host`
and pass `cluster.internal::80` to `net.Dial` on every round of the wait
loop instead. In a world where that dial fails on every attempt the function
never returns. For comparison, the same host with port 4646, and without the
colon, resolve as the claim says. -/
theorem C1_trailing_colon_target :
    edgeEnv.parseRequestURI "http://cluster.internal:" = .ok ⟨"http", "cluster.internal:"⟩ ∧
    URL.Port ⟨"http", "cluster.internal:"⟩ = "" ∧
    URL.Hostname ⟨"http", "cluster.internal:"⟩ = "cluster.internal" ∧
    nomadSocket ⟨"http", "cluster.internal:"⟩ = "cluster.internal::80" ∧
    nomadSocket ⟨"http", "cluster.internal:"⟩ ≠
      URL.Hostname ⟨"http", "cluster.internal:"⟩ ++ ":80" ∧
    nomadSocket ⟨"https", "cluster.internal:"⟩ = "cluster.internal::443" ∧
    (waitLoop 2 (nomadSocket ⟨"http", "cluster.internal:"⟩)
        { refusingWorld with dials := fun n => if n < 1 then refusingWorld.dials n else none }).map
      World.trace = some [.dial "tcp" "cluster.internal::80", .sleep 5,
        .dial "tcp" "cluster.internal::80"] ∧
    (∀ fuel, resourceNostrapAclTokenCreate edgeEnv fuel
      { scenarioData with address := "http://cluster.internal:" } refusingWorld = none) ∧
    URL.Port ⟨"http", "cluster.internal:4646"⟩ = "4646" ∧
    nomadSocket ⟨"http", "cluster.internal:4646"⟩ = "cluster.internal:4646" ∧
    URL.Port ⟨"http", "cluster.internal"⟩ = "" ∧
    nomadSocket ⟨"http", "cluster.internal"⟩ = "cluster.internal:80" ∧
    nomadSocket ⟨"https", "cluster.internal"⟩ = "cluster.internal:443" := by
  refine ⟨by decide, by decide, by decide, by decide, by decide, by decide, by decide, ?_,
    by decide, by decide, by decide, by decide, by decide⟩
  intro fuel
  exact create_refused_forever edgeEnv fuel _ refusingWorld ⟨"http", "cluster.internal:"⟩
    (by decide) (fun _ => rfl)

/-- C8: when the address parses and the first `N` dials of the target fail
and the next one succeeds, the wait loop ends after exactly `N + 1` dials and
`N` sleeps of `WAIT_TIMEOUT = 5` seconds, one right after each failed dial
and none after the successful one, and `resourceNostrapAclTokenCreate` goes
on with the bootstrap: whatever it ends in, its next call is the post to the
bootstrap endpoint. -/
theorem C8_readiness_waiter (env : Env) (fuel : Nat) (d : ResourceData) (w : World) (u : URL)
    (N : Nat) (hparse : env.parseRequestURI d.address = .ok u)
    (hrefused : ∀ i, i < N → (w.dials i).isSome = true) (haccept : w.dials N = none)
    (hfuel : N < fuel) :
    ∃ w1, waitLoop fuel (nomadSocket u) w = some w1 ∧
      w1.trace = w.trace ++ retryTrace (.dial "tcp" (nomadSocket u)) N ++
        [.dial "tcp" (nomadSocket u)] ∧
      (retryTrace (Event.dial "tcp" (nomadSocket u)) N ++
        [Event.dial "tcp" (nomadSocket u)]).countP Event.isDial = N + 1 ∧
      (retryTrace (Event.dial "tcp" (nomadSocket u)) N ++
        [Event.dial "tcp" (nomadSocket u)]).countP Event.isSleep = N ∧
      WAIT_TIMEOUT = 5 ∧
      w1.dials = (fun i => w.dials (i + (N + 1))) ∧ w1.posts = w.posts ∧ w1.ssm = w.ssm ∧
      createBody env fuel d w = bootstrapAndStore env fuel d w1 ∧
      (∀ r, resourceNostrapAclTokenCreate env fuel d w = some r →
        ∃ rest, r.2.2.trace = w1.trace ++
          Event.post (d.address ++ NOMAD_BOOTSTRAP_ENDPOINT) "application/json" :: rest) := by
  have hbody := createBody_ready env fuel d w u N hparse hrefused haccept hfuel
  refine ⟨w.afterWait (nomadSocket u) N, waitLoop_spec _ N fuel w hrefused haccept hfuel, rfl,
    ?_, ?_, rfl, rfl, rfl, rfl, hbody, ?_⟩
  · rw [List.countP_append, retryTrace_countP_self (Event.dial "tcp" (nomadSocket u)) Event.isDial rfl rfl]
    rfl
  · rw [List.countP_append, retryTrace_countP_sleep (Event.dial "tcp" (nomadSocket u)) rfl]
    rfl
  · intro r hr
    simp only [resourceNostrapAclTokenCreate, hbody] at hr
    cases hb : bootstrapAndStore env fuel d (w.afterWait (nomadSocket u) N) with
    | none => simp [hb] at hr
    | some r1 =>
      obtain ⟨o, d1, w2, defers⟩ := r1
      simp only [hb, Option.some.injEq] at hr
      obtain ⟨rest, hrest⟩ := bootstrapAndStore_first_post env fuel d _ _ hb
      subst hr
      simp only [runDeferred_trace] at hrest ⊢
      exact ⟨rest ++ defers, by rw [hrest]; simp⟩

/-- C8 in the scenario: three refused connections, then one accepted. -/
theorem C8_readiness_waiter_witness :
    ∃ w1, waitLoop 4 "cluster.internal:443" scenarioWorld = some w1 ∧
      w1.trace = [.dial "tcp" "cluster.internal:443", .sleep 5,
        .dial "tcp" "cluster.internal:443", .sleep 5,
        .dial "tcp" "cluster.internal:443", .sleep 5,
        .dial "tcp" "cluster.internal:443"] := by
  obtain ⟨w1, h1, h2, _⟩ := C8_readiness_waiter (scenarioEnv true) 4 scenarioData scenarioWorld
    ⟨"https", "cluster.internal"⟩ 3 (by decide) (by decide) (by decide) (by decide)
  exact ⟨w1, h1, h2⟩

/-- Every deferred body close is a `closeBody`. -/
theorem pendingCloses_mem (e : Event) :
    ∀ (k : Nat) (posts : Nat → PostResult), e ∈ pendingCloses posts k → e = Event.closeBody := by
  intro k
  induction k with
  | zero => intro posts h; simp [pendingCloses] at h
  | succ k ih =>
    intro posts h
    simp only [pendingCloses, List.mem_append] at h
    rcases h with h | h
    · exact ih _ h
    · split at h
      · simpa using h
      · simp at h

/-- C3: when the address parses, the port accepts a connection after `N`
refusals, and the bootstrap endpoint, after `k` transient answers, gives a
non-200 answer whose body contains "ACL bootstrap already done",
`resourceNostrapAclTokenCreate` returns the error "Nomad ACL Bootstrap was
already done" with the resource data untouched. After the post that got
this answer the trace holds only the deferred closes: no sleep, no further
post, no store call, no probe; the parameter store is unchanged and no
further answer of the endpoint is consumed. -/
theorem C3_already_bootstrapped (env : Env) (fuel : Nat) (d : ResourceData) (w : World)
    (u : URL) (N k : Nat) (status : Int) (body : String)
    (hparse : env.parseRequestURI d.address = .ok u)
    (hrefused : ∀ i, i < N → (w.dials i).isSome = true) (haccept : w.dials N = none)
    (htransient : ∀ i, i < k → (w.posts i).transient = true)
    (hresp : w.posts k = .response status (some body)) (hstatus : status ≠ 200)
    (hmark : stringsContains body "ACL bootstrap already done" = true)
    (hN : N < fuel) (hk : k < fuel) :
    ∃ w1, resourceNostrapAclTokenCreate env fuel d w =
        some (.error (.errorf "Nomad ACL Bootstrap was already done"), d, w1) ∧
      w1.trace = (w.afterWait (nomadSocket u) N).trace ++
        retryTrace (.post (d.address ++ NOMAD_BOOTSTRAP_ENDPOINT) "application/json") k ++
        [.post (d.address ++ NOMAD_BOOTSTRAP_ENDPOINT) "application/json"] ++
        (Event.closeBody :: (pendingCloses w.posts k ++ [Event.closeConn])) ∧
      (∀ e, e ∈ Event.closeBody :: (pendingCloses w.posts k ++ [Event.closeConn]) →
        e = Event.closeBody ∨ e = Event.closeConn) ∧
      w1.ssm = w.ssm ∧ w1.posts = (fun i => w.posts (i + (k + 1))) := by
  have hbody := createBody_ready env fuel d w u N hparse hrefused haccept hN
  have hloop := bootstrapLoop_already env (d.address ++ NOMAD_BOOTSTRAP_ENDPOINT) k fuel
    (w.afterWait (nomadSocket u) N) [Event.closeConn] status body htransient hresp hstatus hmark hk
  refine ⟨runDeferred (Event.closeBody :: (pendingCloses w.posts k ++ [Event.closeConn]))
    ((w.afterWait (nomadSocket u) N).afterPosts (d.address ++ NOMAD_BOOTSTRAP_ENDPOINT) k),
    ?_, ?_, ?_, ?_, ?_⟩
  · simp only [resourceNostrapAclTokenCreate, hbody, bootstrapAndStore, hloop]
    rfl
  · simp [runDeferred_trace, World.afterPosts, World.afterWait]
  · intro e he
    simp only [List.mem_cons, List.mem_append, List.mem_singleton, List.not_mem_nil,
      or_false] at he
    rcases he with he | he | he
    · exact Or.inl he
    · exact Or.inl (pendingCloses_mem e k _ he)
    · exact Or.inr he
  · simp [runDeferred_trace, World.afterPosts, World.afterWait]
  · simp [runDeferred_trace, World.afterPosts, World.afterWait]

/-- C3 in a world where the second post is told that the bootstrap was
already done. -/
theorem C3_already_bootstrapped_witness :
    ∃ w1, resourceNostrapAclTokenCreate (scenarioEnv true) 2 scenarioData alreadyWorld =
        some (.error (.errorf "Nomad ACL Bootstrap was already done"), scenarioData, w1) ∧
      w1.trace = [.dial "tcp" "cluster.internal:443",
        .post "https://cluster.internal/v1/acl/bootstrap" "application/json", .sleep 5,
        .post "https://cluster.internal/v1/acl/bootstrap" "application/json",
        .closeBody, .closeBody, .closeConn] := by
  obtain ⟨w1, h1, h2, _⟩ := C3_already_bootstrapped (scenarioEnv true) 2 scenarioData
    alreadyWorld ⟨"https", "cluster.internal"⟩ 0 1 400
    "ACL bootstrap already done (reset index: 7)"
    (by decide) (by decide) (by decide) (by decide) (by decide) (by decide) (by decide)
    (by decide) (by decide)
  exact ⟨w1, h1, h2.trans (by decide)⟩

/-- C4: when the bootstrap endpoint gives `k` transient answers (non-200,
body absent or without the marker) and then answers 200 with a body that
decodes to `token`, the bootstrap loop ends with exactly that token after
`k + 1` posts, having slept `WAIT_TIMEOUT = 5` seconds after each of the
first `k` and not after the last; it consumes exactly `k + 1` answers, and
`resourceNostrapAclTokenCreate` goes on to store that token. -/
theorem C4_bootstrap_success (env : Env) (fuel : Nat) (d : ResourceData) (w : World)
    (defers : List Event) (k : Nat) (body : String) (token : NostrapAclTokenResponse)
    (htransient : ∀ i, i < k → (w.posts i).transient = true)
    (h200 : w.posts k = .response 200 (some body))
    (hdecode : env.jsonDecode body = .ok token) (hk : k < fuel) :
    ∃ w1 ds, bootstrapLoop env fuel (d.address ++ NOMAD_BOOTSTRAP_ENDPOINT) w defers =
        some (.ok token, w1, ds ++ defers) ∧
      w1.trace = w.trace ++
        retryTrace (.post (d.address ++ NOMAD_BOOTSTRAP_ENDPOINT) "application/json") k ++
        [.post (d.address ++ NOMAD_BOOTSTRAP_ENDPOINT) "application/json"] ∧
      (retryTrace (Event.post (d.address ++ NOMAD_BOOTSTRAP_ENDPOINT) "application/json") k ++
        [Event.post (d.address ++ NOMAD_BOOTSTRAP_ENDPOINT) "application/json"]).countP
          Event.isPost = k + 1 ∧
      (retryTrace (Event.post (d.address ++ NOMAD_BOOTSTRAP_ENDPOINT) "application/json") k ++
        [Event.post (d.address ++ NOMAD_BOOTSTRAP_ENDPOINT) "application/json"]).countP
          Event.isSleep = k ∧
      WAIT_TIMEOUT = 5 ∧
      w1.posts = (fun i => w.posts (i + (k + 1))) ∧ w1.dials = w.dials ∧ w1.ssm = w.ssm ∧
      bootstrapAndStore env fuel d w =
        some ((storeAndRead env d token w1).1, (storeAndRead env d token w1).2.1,
          (storeAndRead env d token w1).2.2, ds ++ [Event.closeConn]) := by
  have hloop := fun ds => bootstrapLoop_success env (d.address ++ NOMAD_BOOTSTRAP_ENDPOINT) k fuel
    w ds body token htransient h200 hdecode hk
  refine ⟨w.afterPosts (d.address ++ NOMAD_BOOTSTRAP_ENDPOINT) k,
    Event.closeBody :: pendingCloses w.posts k, ?_, rfl, ?_, ?_, rfl, rfl, rfl, rfl, ?_⟩
  · rw [hloop]
    simp
  · rw [List.countP_append, retryTrace_countP_self
      (Event.post (d.address ++ NOMAD_BOOTSTRAP_ENDPOINT) "application/json") Event.isPost rfl rfl]
    rfl
  · rw [List.countP_append, retryTrace_countP_sleep
      (Event.post (d.address ++ NOMAD_BOOTSTRAP_ENDPOINT) "application/json") rfl]
    rfl
  · simp only [bootstrapAndStore, hloop]
    simp

/-- C4 in a world that answers 500, then 503, then 200. -/
theorem C4_bootstrap_success_witness :
    ∃ w1 ds, bootstrapLoop (scenarioEnv true) 3 "https://cluster.internal/v1/acl/bootstrap"
        retryWorld [] = some (.ok scenarioToken, w1, ds) ∧
      w1.trace = [.post "https://cluster.internal/v1/acl/bootstrap" "application/json", .sleep 5,
        .post "https://cluster.internal/v1/acl/bootstrap" "application/json", .sleep 5,
        .post "https://cluster.internal/v1/acl/bootstrap" "application/json"] ∧
      scenarioToken.AccessorID = "abc" ∧ scenarioToken.SecretID = "xyz" := by
  obtain ⟨w1, ds, h1, h2, _⟩ := C4_bootstrap_success (scenarioEnv true) 3 scenarioData retryWorld
    [] 2 scenarioBody scenarioToken (by decide) (by decide) (by decide) (by decide)
  exact ⟨w1, ds ++ [], h1, h2.trans (by decide), rfl, rfl⟩

/-- C9: when the address parses, the port accepts a connection after `N`
refusals, and `http.Post`, after `k` transient answers, returns an error
instead of a response, `resourceNostrapAclTokenCreate` returns that same
error with the resource data untouched. After the failed post the trace
holds only the deferred closes: no sleep, no further post, no store call, no
probe; the parameter store is unchanged. -/
theorem C9_transport_error (env : Env) (fuel : Nat) (d : ResourceData) (w : World)
    (u : URL) (N k : Nat) (err : GoError)
    (hparse : env.parseRequestURI d.address = .ok u)
    (hrefused : ∀ i, i < N → (w.dials i).isSome = true) (haccept : w.dials N = none)
    (htransient : ∀ i, i < k → (w.posts i).transient = true)
    (herr : w.posts k = .transportError err)
    (hN : N < fuel) (hk : k < fuel) :
    ∃ w1, resourceNostrapAclTokenCreate env fuel d w = some (.error err, d, w1) ∧
      w1.trace = (w.afterWait (nomadSocket u) N).trace ++
        retryTrace (.post (d.address ++ NOMAD_BOOTSTRAP_ENDPOINT) "application/json") k ++
        [.post (d.address ++ NOMAD_BOOTSTRAP_ENDPOINT) "application/json"] ++
        (pendingCloses w.posts k ++ [Event.closeConn]) ∧
      (∀ e, e ∈ pendingCloses w.posts k ++ [Event.closeConn] →
        e = Event.closeBody ∨ e = Event.closeConn) ∧
      w1.ssm = w.ssm ∧ w1.posts = (fun i => w.posts (i + (k + 1))) := by
  have hbody := createBody_ready env fuel d w u N hparse hrefused haccept hN
  have hloop := bootstrapLoop_transport env (d.address ++ NOMAD_BOOTSTRAP_ENDPOINT) k fuel
    (w.afterWait (nomadSocket u) N) [Event.closeConn] err htransient herr hk
  refine ⟨runDeferred (pendingCloses w.posts k ++ [Event.closeConn])
    ((w.afterWait (nomadSocket u) N).afterPosts (d.address ++ NOMAD_BOOTSTRAP_ENDPOINT) k),
    ?_, ?_, ?_, ?_, ?_⟩
  · simp only [resourceNostrapAclTokenCreate, hbody, bootstrapAndStore, hloop]
    rfl
  · simp [runDeferred_trace, World.afterPosts, World.afterWait]
  · intro e he
    simp only [List.mem_append, List.mem_singleton] at he
    rcases he with he | he
    · exact Or.inl (pendingCloses_mem e k _ he)
    · exact Or.inr he
  · simp [runDeferred_trace, World.afterPosts, World.afterWait]
  · simp [runDeferred_trace, World.afterPosts, World.afterWait]

/-- C9 in a world whose first post fails in the transport. -/
theorem C9_transport_error_witness :
    ∃ w1, resourceNostrapAclTokenCreate (scenarioEnv true) 1 scenarioData resetWorld =
        some (.error (.lib "connection reset by peer"), scenarioData, w1) ∧
      w1.trace = [.dial "tcp" "cluster.internal:443",
        .post "https://cluster.internal/v1/acl/bootstrap" "application/json", .closeConn] := by
  obtain ⟨w1, h1, h2, _⟩ := C9_transport_error (scenarioEnv true) 1 scenarioData resetWorld
    ⟨"https", "cluster.internal"⟩ 0 0 (.lib "connection reset by peer")
    (by decide) (by decide) (by decide) (by decide) (by decide) (by decide) (by decide)
  exact ⟨w1, h1, h2.trans (by decide)⟩

/-- `resourceNostrapAclTokenRead` when both values are found and the probe
gets a response. -/
theorem read_found (env : Env) (d : ResourceData) (w : World) (a s : String) (status : Int)
    (hready : env.session d.aws_region = .ready)
    (ha : (w.ssm d.aws_region).GetParameter (paramName d.ssmPrefix "accessor_id") = .ok a)
    (hs : (w.ssm d.aws_region).GetParameter (paramName d.ssmPrefix "secret_id") = .ok s)
    (hreq : env.httpNewRequest (d.address ++ NOMAD_NODES_ENDPOINT) = none)
    (hdo : env.httpDo (d.address ++ NOMAD_NODES_ENDPOINT) s = .response status) :
    resourceNostrapAclTokenRead env d w =
      (if status = 200 then Outcome.ok else Outcome.error (.errorf credentialUnusableMsg),
        { d with accessor_id := a, secret_id := s, id := a },
        { w with trace := w.trace ++
            [.getParameter d.aws_region (paramName d.ssmPrefix "accessor_id") true,
             .getParameter d.aws_region (paramName d.ssmPrefix "secret_id") true,
             .httpGet (d.address ++ NOMAD_NODES_ENDPOINT) s] }) := by
  simp only [resourceNostrapAclTokenRead, getSsmClient, hready]
  rw [fetchLoop_found ⟨d.aws_region⟩ d w a s ha hs]
  simp only [verifyProbe, hreq, hdo]
  by_cases h200 : status = 200
  · simp [h200, World.emit]
  · simp [h200, World.emit]

/-- C5: when both stored values are fetched and the `GET` of
`<address>/v1/nodes`, sent with the header `X-Nomad-Token` set to the stored
`secret_id`, gets a response, `resourceNostrapAclTokenRead` returns `nil`
exactly when the status is 200 and otherwise the error "Cannot get data from
cluster with ACL token. ..."; either way the one call the probe adds is that
`GET`, and the probe leaves the resource data and the parameter store as
the fetch left them. -/
theorem C5_verification_probe (env : Env) (d : ResourceData) (w : World) (a s : String)
    (status : Int)
    (hready : env.session d.aws_region = .ready)
    (ha : (w.ssm d.aws_region).GetParameter (paramName d.ssmPrefix "accessor_id") = .ok a)
    (hs : (w.ssm d.aws_region).GetParameter (paramName d.ssmPrefix "secret_id") = .ok s)
    (hreq : env.httpNewRequest (d.address ++ NOMAD_NODES_ENDPOINT) = none)
    (hdo : env.httpDo (d.address ++ NOMAD_NODES_ENDPOINT) s = .response status) :
    ((resourceNostrapAclTokenRead env d w).1 = Outcome.ok ↔ status = 200) ∧
    (status ≠ 200 → (resourceNostrapAclTokenRead env d w).1 =
      Outcome.error (.errorf credentialUnusableMsg)) ∧
    (resourceNostrapAclTokenRead env d w).2.1 =
      (fetchLoop ⟨d.aws_region⟩ ["accessor_id", "secret_id"] d w).2.1 ∧
    (resourceNostrapAclTokenRead env d w).2.1 =
      { d with accessor_id := a, secret_id := s, id := a } ∧
    (resourceNostrapAclTokenRead env d w).2.2.trace =
      (fetchLoop ⟨d.aws_region⟩ ["accessor_id", "secret_id"] d w).2.2.trace ++
        [.httpGet (d.address ++ "/v1/nodes") s] ∧
    (resourceNostrapAclTokenRead env d w).2.2.ssm = w.ssm ∧
    (resourceNostrapAclTokenRead env d w).2.2.dials = w.dials ∧
    (resourceNostrapAclTokenRead env d w).2.2.posts = w.posts := by
  rw [read_found env d w a s status hready ha hs hreq hdo,
    fetchLoop_found ⟨d.aws_region⟩ d w a s ha hs]
  refine ⟨?_, ?_, rfl, rfl, ?_, rfl, rfl, rfl⟩
  · by_cases h200 : status = 200 <;> simp [h200]
  · intro h200
    simp [h200]
  · simp [NOMAD_NODES_ENDPOINT]

/-- C5 in a world whose stored secret the cluster answers with 403. -/
theorem C5_verification_probe_witness :
    (resourceNostrapAclTokenRead (scenarioEnv true) scenarioData storedWorld).1 =
      Outcome.error (.errorf credentialUnusableMsg) ∧
    (resourceNostrapAclTokenRead (scenarioEnv true) scenarioData storedWorld).2.2.trace =
      [.getParameter "eu-west-1" "prefix/accessor_id" true,
       .getParameter "eu-west-1" "prefix/secret_id" true,
       .httpGet "https://cluster.internal/v1/nodes" "revoked"] :=
  ⟨(C5_verification_probe (scenarioEnv true) scenarioData storedWorld "abc" "revoked" 403
      (by decide) (by decide) (by decide) (by decide) (by decide)).2.1 (by decide),
    by decide⟩

/-- C6: over a parameter store that serves the two names
`<prefix>/accessor_id` and `<prefix>/secret_id`, whatever it held before and
whichever entry `range` visits first, the write loop of
`resourceNostrapAclTokenCreate` puts `AccessorID` at `<prefix>/accessor_id`
and `SecretID` at `<prefix>/secret_id` (type `SecureString`, overwrite set)
and leaves every other name as it was; the fetch loop of
`resourceNostrapAclTokenRead` with the same prefix then gets those two names
in that order and ends without an early return, with `accessor_id` and
`secret_id` equal to the written strings and the identifier equal to the
written `AccessorID`. -/
theorem C6_store_round_trip (env : Env) (region : String) (d : ResourceData) (w : World)
    (token : NostrapAclTokenResponse)
    (ha : w.Serves region (d.ssmPrefix ++ "/accessor_id"))
    (hs : w.Serves region (d.ssmPrefix ++ "/secret_id")) :
    ∃ w1 d2 w2,
      putLoop (some ⟨region⟩) d.ssmPrefix (credentials env token) w = (none, w1) ∧
      w1.trace = w.trace ++
        (if env.accessorFirst then
          [.putParameter region (d.ssmPrefix ++ "/accessor_id") token.AccessorID
              "SecureString" true,
           .putParameter region (d.ssmPrefix ++ "/secret_id") token.SecretID
              "SecureString" true]
        else
          [.putParameter region (d.ssmPrefix ++ "/secret_id") token.SecretID
              "SecureString" true,
           .putParameter region (d.ssmPrefix ++ "/accessor_id") token.AccessorID
              "SecureString" true]) ∧
      (w1.ssm region).params (d.ssmPrefix ++ "/accessor_id") = some token.AccessorID ∧
      (w1.ssm region).params (d.ssmPrefix ++ "/secret_id") = some token.SecretID ∧
      (∀ name, name ≠ d.ssmPrefix ++ "/accessor_id" → name ≠ d.ssmPrefix ++ "/secret_id" →
        (w1.ssm region).params name = (w.ssm region).params name) ∧
      fetchLoop ⟨region⟩ ["accessor_id", "secret_id"] d w1 = (none, d2, w2) ∧
      w2.trace = w1.trace ++
        [.getParameter region (d.ssmPrefix ++ "/accessor_id") true,
         .getParameter region (d.ssmPrefix ++ "/secret_id") true] ∧
      w2.ssm = w1.ssm ∧
      d2 = { d with accessor_id := token.AccessorID, secret_id := token.SecretID,
                    id := token.AccessorID } ∧
      d2.accessor_id = token.AccessorID ∧ d2.secret_id = token.SecretID ∧
      d2.id = token.AccessorID := by
  have hpathA : paramName d.ssmPrefix "accessor_id" = d.ssmPrefix ++ "/accessor_id" := by
    apply String.ext
    simp [paramName, String.data_append]
  have hpathS : paramName d.ssmPrefix "secret_id" = d.ssmPrefix ++ "/secret_id" := by
    apply String.ext
    simp [paramName, String.data_append]
  rw [← hpathA] at ha
  rw [← hpathS] at hs
  rw [← hpathA, ← hpathS]
  obtain ⟨w1, hput, htr, -, -, hpa, hps, hga, hgs, -, hother⟩ :=
    putLoop_credentials env region d.ssmPrefix token w ha hs
  refine ⟨w1, _, _, hput, ?_, hpa, hps, hother, fetchLoop_found ⟨region⟩ d w1 _ _ hga hgs,
    rfl, rfl, rfl, rfl, rfl, rfl⟩
  rw [htr]
  cases hord : env.accessorFirst <;> simp [putEvents, credentials, hord]

/-- C6 over a store that holds other values under the two names, with
`secret_id` visited first. -/
theorem C6_store_round_trip_witness :
    ∃ w1 d2 w2,
      putLoop (some ⟨"eu-west-1"⟩) "prefix" (credentials (scenarioEnv false) scenarioToken)
        storedWorld = (none, w1) ∧
      w1.trace =
        [.putParameter "eu-west-1" "prefix/secret_id" "xyz" "SecureString" true,
         .putParameter "eu-west-1" "prefix/accessor_id" "abc" "SecureString" true] ∧
      (storedWorld.ssm "eu-west-1").params "prefix/secret_id" = some "revoked" ∧
      (w1.ssm "eu-west-1").params "prefix/accessor_id" = some "abc" ∧
      (w1.ssm "eu-west-1").params "prefix/secret_id" = some "xyz" ∧
      fetchLoop ⟨"eu-west-1"⟩ ["accessor_id", "secret_id"] scenarioData w1 = (none, d2, w2) ∧
      w2.trace = w1.trace ++
        [.getParameter "eu-west-1" "prefix/accessor_id" true,
         .getParameter "eu-west-1" "prefix/secret_id" true] ∧
      d2.accessor_id = "abc" ∧ d2.secret_id = "xyz" ∧ d2.id = "abc" := by
  obtain ⟨w1, d2, w2, h1, h2, h3, h4, _, h6, h7, _, _, h10, h11, h12⟩ :=
    C6_store_round_trip (scenarioEnv false) "eu-west-1" scenarioData storedWorld scenarioToken
      ⟨rfl, rfl⟩ ⟨rfl, rfl⟩
  exact ⟨w1, d2, w2, h1, h2.trans (by decide), by decide, h3, h4, h6, h7, h10, h11, h12⟩

/-- C7: with a usable client, when `GetParameter` answers
`ParameterNotFound` for `<prefix>/accessor_id`, or for `<prefix>/secret_id`
after the accessor was found, `resourceNostrapAclTokenRead` returns `nil`
with an empty identifier and sends no probe; any other error of either call
is returned as it is. -/
theorem C7_resource_absent (env : Env) (d : ResourceData) (w : World) (e : AwsError)
    (hready : env.session d.aws_region = .ready) :
    ((w.ssm d.aws_region).GetParameter (paramName d.ssmPrefix "accessor_id") = .error e →
      e.code = "ParameterNotFound" →
      resourceNostrapAclTokenRead env d w =
        (.ok, { d with id := "" },
          w.emit (.getParameter d.aws_region (paramName d.ssmPrefix "accessor_id") true))) ∧
    (∀ a, (w.ssm d.aws_region).GetParameter (paramName d.ssmPrefix "accessor_id") = .ok a →
      (w.ssm d.aws_region).GetParameter (paramName d.ssmPrefix "secret_id") = .error e →
      e.code = "ParameterNotFound" →
      resourceNostrapAclTokenRead env d w =
        (.ok, { d with accessor_id := a, id := "" },
          (w.emit (.getParameter d.aws_region (paramName d.ssmPrefix "accessor_id") true)).emit
            (.getParameter d.aws_region (paramName d.ssmPrefix "secret_id") true))) ∧
    ((w.ssm d.aws_region).GetParameter (paramName d.ssmPrefix "accessor_id") = .error e →
      e.code ≠ "ParameterNotFound" →
      resourceNostrapAclTokenRead env d w =
        (.error (.aws e), d,
          w.emit (.getParameter d.aws_region (paramName d.ssmPrefix "accessor_id") true))) ∧
    (∀ a, (w.ssm d.aws_region).GetParameter (paramName d.ssmPrefix "accessor_id") = .ok a →
      (w.ssm d.aws_region).GetParameter (paramName d.ssmPrefix "secret_id") = .error e →
      e.code ≠ "ParameterNotFound" →
      resourceNostrapAclTokenRead env d w =
        (.error (.aws e), { d with accessor_id := a, id := a },
          (w.emit (.getParameter d.aws_region (paramName d.ssmPrefix "accessor_id") true)).emit
            (.getParameter d.aws_region (paramName d.ssmPrefix "secret_id") true))) := by
  refine ⟨?_, ?_, ?_, ?_⟩
  · intro h hc
    simp [resourceNostrapAclTokenRead, getSsmClient, hready, fetchLoop, h, hc,
      ErrCodeParameterNotFound, ResourceData.SetId]
  · intro a ha h hc
    simp [resourceNostrapAclTokenRead, getSsmClient, hready, fetchLoop, ha, h, hc,
      ErrCodeParameterNotFound, ResourceData.SetId, ResourceData.Set, World.emit]
  · intro h hc
    simp [resourceNostrapAclTokenRead, getSsmClient, hready, fetchLoop, h, hc,
      ErrCodeParameterNotFound]
  · intro a ha h hc
    simp [resourceNostrapAclTokenRead, getSsmClient, hready, fetchLoop, ha, h, hc,
      ErrCodeParameterNotFound, ResourceData.SetId, ResourceData.Set, World.emit]

/-- C7 in a world whose store holds the accessor only: the read succeeds
and clears the identifier. -/
theorem C7_resource_absent_witness :
    resourceNostrapAclTokenRead (scenarioEnv true) { scenarioData with id := "abc" }
        halfStoredWorld =
      (.ok, { scenarioData with accessor_id := "abc", id := "" },
        (halfStoredWorld.emit (.getParameter "eu-west-1" "prefix/accessor_id" true)).emit
          (.getParameter "eu-west-1" "prefix/secret_id" true)) :=
  (C7_resource_absent (scenarioEnv true) { scenarioData with id := "abc" } halfStoredWorld
    ⟨"ParameterNotFound", ""⟩ (by decide)).2.1 "abc" (by decide) (by decide) (by decide)

/-- C10: with address `https://cluster.internal` (parsed to scheme `https`,
host `cluster.internal`) and prefix `prefix`, three refused connections and
then an accepted one, a first bootstrap answer of 200 whose body decodes to
a token with `AccessorID` "abc" and `SecretID` "xyz", a usable client, a
store that serves both names, and a probe with token "xyz" answered by 200:
`resourceNostrapAclTokenCreate` returns `nil`, every dial goes to
`cluster.internal:443`, the store holds "abc" at `prefix/accessor_id` and
"xyz" at `prefix/secret_id`, the probe carries the token "xyz", and the
identifier is "abc". -/
theorem C10_end_to_end (env : Env) (fuel : Nat) (d : ResourceData) (w : World) (body : String)
    (token : NostrapAclTokenResponse)
    (haddr : d.address = "https://cluster.internal") (hpfx : d.ssmPrefix = "prefix")
    (hparse : env.parseRequestURI "https://cluster.internal" = .ok ⟨"https", "cluster.internal"⟩)
    (hrefused : ∀ i, i < 3 → (w.dials i).isSome = true) (haccept : w.dials 3 = none)
    (h200 : w.posts 0 = .response 200 (some body))
    (hdecode : env.jsonDecode body = .ok token)
    (hacc : token.AccessorID = "abc") (hsec : token.SecretID = "xyz")
    (hready : env.session d.aws_region = .ready)
    (hsa : w.Serves d.aws_region "prefix/accessor_id")
    (hss : w.Serves d.aws_region "prefix/secret_id")
    (hreq : env.httpNewRequest "https://cluster.internal/v1/nodes" = none)
    (hdo : env.httpDo "https://cluster.internal/v1/nodes" "xyz" = .response 200)
    (hfuel : 3 < fuel) :
    ∃ d1 w1, resourceNostrapAclTokenCreate env fuel d w = some (.ok, d1, w1) ∧
      d1.id = "abc" ∧ d1.accessor_id = "abc" ∧ d1.secret_id = "xyz" ∧
      (w1.ssm d.aws_region).params "prefix/accessor_id" = some "abc" ∧
      (w1.ssm d.aws_region).params "prefix/secret_id" = some "xyz" ∧
      w1.trace = w.trace ++
        [.dial "tcp" "cluster.internal:443", .sleep 5,
         .dial "tcp" "cluster.internal:443", .sleep 5,
         .dial "tcp" "cluster.internal:443", .sleep 5,
         .dial "tcp" "cluster.internal:443",
         .post "https://cluster.internal/v1/acl/bootstrap" "application/json"] ++
        putEvents d.aws_region "prefix" (credentials env token) ++
        [.getParameter d.aws_region "prefix/accessor_id" true,
         .getParameter d.aws_region "prefix/secret_id" true,
         .httpGet "https://cluster.internal/v1/nodes" "xyz",
         .closeBody, .closeConn] := by
  obtain ⟨address, pfx, a0, s0, region, id0⟩ := d
  simp only at haddr hpfx hready hsa hss
  subst haddr hpfx
  have hbody := createBody_ready env fuel ⟨_, "prefix", a0, s0, region, id0⟩ w
    ⟨"https", "cluster.internal"⟩ 3 hparse hrefused haccept hfuel
  have hloop := bootstrapLoop_success env
    ("https://cluster.internal" ++ NOMAD_BOOTSTRAP_ENDPOINT) 0 fuel
    (w.afterWait (nomadSocket ⟨"https", "cluster.internal"⟩) 3) [Event.closeConn] body token
    (by intro i hi; omega) h200 hdecode (by omega)
  obtain ⟨w2, hput, htr, -, -, hpa, hps, hga, hgs, -⟩ :=
    putLoop_credentials env region "prefix" token
      ((w.afterWait (nomadSocket ⟨"https", "cluster.internal"⟩) 3).afterPosts
        ("https://cluster.internal" ++ NOMAD_BOOTSTRAP_ENDPOINT) 0) hsa hss
  have hread := read_found env ⟨"https://cluster.internal", "prefix", a0, s0, region, id0⟩ w2
    token.AccessorID token.SecretID 200 hready hga hgs hreq (by rw [hsec]; exact hdo)
  have hcreate : resourceNostrapAclTokenCreate env fuel
      ⟨"https://cluster.internal", "prefix", a0, s0, region, id0⟩ w =
      some (.ok, ⟨"https://cluster.internal", "prefix", token.AccessorID, token.SecretID, region,
          token.AccessorID⟩,
        runDeferred [Event.closeBody, Event.closeConn]
          { w2 with trace := w2.trace ++
              [.getParameter region (paramName "prefix" "accessor_id") true,
               .getParameter region (paramName "prefix" "secret_id") true,
               .httpGet ("https://cluster.internal" ++ NOMAD_NODES_ENDPOINT) token.SecretID] }) := by
    simp only [resourceNostrapAclTokenCreate, hbody, bootstrapAndStore, hloop, storeAndRead,
      getSsmClient, hready, hput, hread]
    rfl
  refine ⟨_, _, hcreate, hacc, hacc, hsec, ?_, ?_, ?_⟩
  · rw [runDeferred_trace]
    exact hacc ▸ hpa
  · rw [runDeferred_trace]
    exact hsec ▸ hps
  · simp only [runDeferred_trace, htr, hsec]
    simp [World.afterPosts, World.afterWait, retryTrace, paramName]
    decide

/-- C10 in the scenario's world, with `secret_id` visited first. -/
theorem C10_end_to_end_witness :
    ∃ d1 w1, resourceNostrapAclTokenCreate (scenarioEnv false) 4 scenarioData scenarioWorld =
        some (.ok, d1, w1) ∧
      d1.id = "abc" ∧
      (w1.ssm "eu-west-1").params "prefix/accessor_id" = some "abc" ∧
      (w1.ssm "eu-west-1").params "prefix/secret_id" = some "xyz" ∧
      w1.trace =
        [.dial "tcp" "cluster.internal:443", .sleep 5,
         .dial "tcp" "cluster.internal:443", .sleep 5,
         .dial "tcp" "cluster.internal:443", .sleep 5,
         .dial "tcp" "cluster.internal:443",
         .post "https://cluster.internal/v1/acl/bootstrap" "application/json",
         .putParameter "eu-west-1" "prefix/secret_id" "xyz" "SecureString" true,
         .putParameter "eu-west-1" "prefix/accessor_id" "abc" "SecureString" true,
         .getParameter "eu-west-1" "prefix/accessor_id" true,
         .getParameter "eu-west-1" "prefix/secret_id" true,
         .httpGet "https://cluster.internal/v1/nodes" "xyz",
         .closeBody, .closeConn] := by
  obtain ⟨d1, w1, h1, h2, _, _, h5, h6, h7⟩ := C10_end_to_end (scenarioEnv false) 4 scenarioData
    scenarioWorld scenarioBody scenarioToken rfl rfl (by decide) (by decide) (by decide)
    (by decide) (by decide) rfl rfl (by decide) ⟨rfl, rfl⟩ ⟨rfl, rfl⟩ (by decide) (by decide)
    (by decide)
  exact ⟨d1, w1, h1, h2, h5, h6, h7.trans (by decide)⟩

end Nostrap
